import Mathlib

/-
Verification development for the ip-ping monitor repository.

Shallow embedding of the two core modules:
  src/ping_monitor/src/core/ping_monitor.py   (IPStatus, PingMonitor)
  src/ping_monitor/src/core/alert_manager.py  (AlertConfig, AlertManager)

Modelling conventions:
  - timestamps produced by datetime.now() are abstract natural-number ticks,
    supplied as parameters to the state-update functions;
  - float round-trip times are rationals;
  - Python int counters are Lean Int (so nonnegativity is a real invariant);
  - a Python function that may raise is modelled by an explicit outcome
    (an inductive outcome type, or a Bool flag for whether a callback raises);
    a try/except block that swallows the exception is modelled by the
    handler branch of the embedded function;
  - the JSON text produced by json.dump and read back by json.load is
    modelled at the level of JSON values (the textual encoding and parsing
    performed by the external json library is its documented bijection
    between values and well-formed text, so the byte stream is represented
    by the parse tree it denotes);
  - the threading primitives used by start and stop (threading.Event and
    Thread.join) are external library primitives; their documented
    semantics (a shared monotone flag; join blocks until the worker has
    terminated) are embedded as an interleaved small-step transition
    system over a two-thread program counter state.
-/

namespace PingRepo

/-! ## Data model: alert_manager.py -/

/-- One entry of AlertManager.alert_history: the dict literal built in
send_alert (alert_manager.py lines 58 to 63) with keys timestamp, ip,
message and type, all string valued. -/
structure AlertData where
  timestamp : String
  ip : String
  message : String
  type : String
deriving DecidableEq, Repr

/-- AlertConfig dataclass (alert_manager.py lines 17 to 27). -/
structure AlertConfig where
  email_enabled : Bool
  email_smtp_server : String
  email_smtp_port : Int
  email_username : String
  email_password : String
  email_recipients : List String
  desktop_notification : Bool
  sound_alert : Bool
  sound_file : String
deriving DecidableEq, Repr

/-- The three alert delivery channels of send_alert. -/
inductive Channel where
  | desktop
  | sound
  | email
deriving DecidableEq, Repr

/-- Environment describing the behaviour of the external channel
primitives during one send_alert call: whether notification.notify,
winsound.PlaySound, winsound.Beep or the SMTP pipeline raises, and
whether os.path.exists finds the configured sound file. -/
structure ChannelEnv where
  desktopRaises : Bool
  playSoundRaises : Bool
  beepRaises : Bool
  smtpRaises : Bool
  soundFileExists : Bool
deriving DecidableEq, Repr

/-- Observable result of one send_alert call: the updated history, the
channels attempted in order, the channels whose failure was caught and
logged, and whether the call raised to its caller. -/
structure DispatchResult where
  history : List AlertData
  attempted : List Channel
  errorsLogged : List Channel
  raised : Bool
deriving DecidableEq, Repr

/-- AlertManager.send_alert (alert_manager.py lines 56 to 89).
The record is appended unconditionally (line 64); the desktop block
(lines 67 to 75) and the sound block (lines 78 to 85) each sit in their
own try/except that logs and continues; the email block (lines 88 to 89)
calls a helper whose body is wrapped the same way (lines 93 to 113), and
runs only when email_enabled is set and the recipient list is nonempty
(line 88). No exception escapes to the caller. -/
def send_alert (cfg : AlertConfig) (env : ChannelEnv) (hist : List AlertData)
    (ip message alert_type : String) (now : String) : DispatchResult :=
  let record : AlertData := ⟨now, ip, message, alert_type⟩
  let hist2 := hist ++ [record]
  let attD : List Channel := if cfg.desktop_notification then [Channel.desktop] else []
  let errD : List Channel :=
    if cfg.desktop_notification && env.desktopRaises then [Channel.desktop] else []
  let soundRaises : Bool :=
    if cfg.sound_file ≠ "" ∧ env.soundFileExists = true then env.playSoundRaises
    else env.beepRaises
  let attS : List Channel := if cfg.sound_alert then [Channel.sound] else []
  let errS : List Channel :=
    if cfg.sound_alert && soundRaises then [Channel.sound] else []
  let emailRuns : Bool := cfg.email_enabled && !(cfg.email_recipients.isEmpty)
  let attE : List Channel := if emailRuns then [Channel.email] else []
  let errE : List Channel := if emailRuns && env.smtpRaises then [Channel.email] else []
  ⟨hist2, attD ++ attS ++ attE, errD ++ errS ++ errE, false⟩

/-- Python slice xs[s:] with a possibly negative start index s, as used
by get_alert_history: a negative s counts from the end and clamps at 0,
a nonnegative s clamps at the length. -/
def pySliceFrom {α : Type} (xs : List α) (s : Int) : List α :=
  let n : Int := xs.length
  let start : Int := if s < 0 then max 0 (n + s) else min s n
  xs.drop start.toNat

/-- AlertManager.get_alert_history (alert_manager.py lines 115 to 117):
returns self.alert_history[-limit:]. -/
def get_alert_history (hist : List AlertData) (limit : Int) : List AlertData :=
  pySliceFrom hist (-limit)

/-- The last n elements of a list, most recent last, order preserved.
Written from the wording of the spec for comparison with
get_alert_history. -/
def lastN {α : Type} (xs : List α) (n : Nat) : List α :=
  xs.drop (xs.length - n)

/-! ## JSON persistence: save_alert_history and load_alert_history -/

/-- JSON values, restricted to the constructors the alert history uses:
strings, arrays and objects with ordered string keys. This is the parse
tree of the textual document written by json.dump and read by json.load. -/
inductive Json where
  | str (s : String)
  | arr (elems : List Json)
  | obj (fields : List (String × Json))

/-- The JSON object json.dump writes for one history entry. -/
def encodeAlert (a : AlertData) : Json :=
  Json.obj [("timestamp", Json.str a.timestamp), ("ip", Json.str a.ip),
            ("message", Json.str a.message), ("type", Json.str a.type)]

/-- Reads a string field back out of a decoded JSON value. -/
def decodeStr : Option Json → Option String
  | some (Json.str s) => some s
  | _ => none

/-- Reads one history entry back from its JSON object. -/
def decodeAlert : Json → Option AlertData
  | Json.obj fields =>
    match decodeStr (fields.lookup "timestamp"), decodeStr (fields.lookup "ip"),
          decodeStr (fields.lookup "message"), decodeStr (fields.lookup "type") with
    | some t, some i, some m, some ty => some ⟨t, i, m, ty⟩
    | _, _, _, _ => none
  | _ => none

/-- Reads a list of history entries back elementwise, failing when any
element is not a history entry. -/
def decodeList : List Json → Option (List AlertData)
  | [] => some []
  | j :: rest =>
    match decodeAlert j, decodeList rest with
    | some a, some t => some (a :: t)
    | _, _ => none

/-- Reads a whole history back from the JSON array. -/
def decodeHistory : Json → Option (List AlertData)
  | Json.arr xs => decodeList xs
  | _ => none

/-- AlertManager.save_alert_history (alert_manager.py lines 123 to 130):
json.dump of the full in-memory history, order preserved, modelled as the
JSON value the written file denotes. -/
def save_alert_history (hist : List AlertData) : Json :=
  Json.arr (hist.map encodeAlert)

/-- AlertManager.load_alert_history (alert_manager.py lines 132 to 140):
when the file is absent (os.path.exists false, line 135) the in-memory
history is kept; when json.load fails, or yields a document that is not a
history list, the except branch (lines 139 to 140) logs and keeps the
in-memory history; otherwise the history is replaced wholesale. -/
def load_alert_history (current : List AlertData) (file : Option Json) : List AlertData :=
  match file with
  | none => current
  | some j =>
    match decodeHistory j with
    | some h => h
    | none => current

/-! ## Data model: ping_monitor.py -/

/-- IPStatus dataclass (ping_monitor.py lines 13 to 21). -/
structure IPStatus where
  ip : String
  is_online : Bool
  response_time : ℚ
  last_success : Option Nat
  last_failure : Option Nat
  consecutive_failures : Int
  group : String
deriving DecidableEq, Repr

/-- The fresh record inserted by add_ip (ping_monitor.py lines 47 to 55). -/
def freshStatus (ip group : String) : IPStatus :=
  ⟨ip, false, 0, none, none, 0, group⟩

/-- PingMonitor.add_ip (ping_monitor.py lines 44 to 56): a no-op when the
address is already a key of monitored_ips, otherwise it inserts a fresh
record; Python dict insertion appends at the end of iteration order, so
the dict is an association list with unique keys. -/
def add_ip (reg : List (String × IPStatus)) (ip group : String) :
    List (String × IPStatus) :=
  if (reg.lookup ip).isSome then reg else reg ++ [(ip, freshStatus ip group)]

/-- Outcome of one ping3.ping call (ping_monitor.py line 71): a float
round-trip time in seconds, None for no reply, or a raised exception. -/
inductive ProbeOutcome where
  | success (latency : ℚ)
  | unreachable
  | error
deriving DecidableEq, Repr

/-- Success branch of the status update (ping_monitor.py lines 74 to 78):
online, response time converted to milliseconds, last_success stamped,
failure counter reset. -/
def updateOnSuccess (st : IPStatus) (latency : ℚ) (now : Nat) : IPStatus :=
  { st with is_online := true, response_time := latency * 1000,
            last_success := some now, consecutive_failures := 0 }

/-- Failure branch of the status update (ping_monitor.py lines 79 to 83):
offline, response time zeroed, last_failure stamped, failure counter
incremented. -/
def updateOnFailure (st : IPStatus) (now : Nat) : IPStatus :=
  { st with is_online := false, response_time := 0,
            last_failure := some now,
            consecutive_failures := st.consecutive_failures + 1 }

/-- A registered callback, observed through whether it raises when
invoked with a given address and status. -/
def Callback : Type := String → IPStatus → Bool

/-- The callback fan-out loop of _ping_ip (ping_monitor.py lines 89 to
90), started at list index i: callbacks are invoked in registration
order; the first one that raises is still invoked, but its exception
propagates out of the for loop, so the callbacks after it are skipped.
Returns the invoked indices and whether an exception escaped the loop. -/
def runCallbacksFrom : List Callback → Nat → String → IPStatus → List Nat × Bool
  | [], _, _, _ => ([], false)
  | cb :: rest, i, ip, st =>
    if cb ip st then ([i], true)
    else
      let r := runCallbacksFrom rest (i + 1) ip st
      (i :: r.1, r.2)

/-- Observable effect of one _ping_ip call: the status record afterwards,
the indices of the callbacks that were invoked, and whether the call
raised to its caller. -/
structure PingEffect where
  status : IPStatus
  invoked : List Nat
  raisedToCaller : Bool

/-- PingMonitor._ping_ip (ping_monitor.py lines 68 to 93) for one host
whose current record is st. The whole body sits in one try block: when
ping3.ping raises, the handler at lines 92 to 93 logs and returns with
the record untouched and no callback invoked; otherwise the record is
updated by the success or failure branch and the callbacks run on the
updated record, a callback exception being caught by the same handler.
In every case nothing propagates to the caller. -/
def ping_ip (outcome : ProbeOutcome) (st : IPStatus) (now : Nat)
    (cbs : List Callback) (ip : String) : PingEffect :=
  match outcome with
  | ProbeOutcome.error => ⟨st, [], false⟩
  | ProbeOutcome.success t =>
    let st2 := updateOnSuccess st t now
    let r := runCallbacksFrom cbs 0 ip st2
    ⟨st2, r.1, false⟩
  | ProbeOutcome.unreachable =>
    let st2 := updateOnFailure st now
    let r := runCallbacksFrom cbs 0 ip st2
    ⟨st2, r.1, false⟩

/-- The status record after one _ping_ip call. -/
def probeStep (outcome : ProbeOutcome) (now : Nat) (cbs : List Callback)
    (ip : String) (st : IPStatus) : IPStatus :=
  (ping_ip outcome st now cbs ip).status

/-- A run of consecutive failed probes, one abstract timestamp per probe. -/
def foldFailures (st : IPStatus) (ts : List Nat) (cbs : List Callback)
    (ip : String) : IPStatus :=
  ts.foldl (fun s t => probeStep ProbeOutcome.unreachable t cbs ip s) st

/-- An arbitrary sequence of probe events (outcome and timestamp)
applied to one host record. -/
def applyProbes (st : IPStatus) (evs : List (ProbeOutcome × Nat))
    (cbs : List Callback) (ip : String) : IPStatus :=
  evs.foldl (fun s e => probeStep e.1 e.2 cbs ip s) st

/-- The per-host status invariant stated in the spec data model. -/
def statusInvariant (s : IPStatus) : Prop :=
  (s.is_online = true → s.consecutive_failures = 0 ∧ 0 ≤ s.response_time) ∧
  (s.is_online = false → s.response_time = 0) ∧
  0 ≤ s.consecutive_failures

/-- One sweep of the inner for loop of _monitor_loop (ping_monitor.py
lines 98 to 101) over a registry snapshot, with the probe outcome of each
address given by outcomeOf: every host is handed to _ping_ip, which never
raises, so the sweep always reaches the end of the list. Returns the
updated registry and the addresses processed in order. -/
def runCycle (outcomeOf : String → ProbeOutcome) (now : Nat)
    (cbs : List Callback) :
    List (String × IPStatus) → List (String × IPStatus) × List String
  | [] => ([], [])
  | (ip, st) :: rest =>
    let e := ping_ip (outcomeOf ip) st now cbs ip
    let r := runCycle outcomeOf now cbs rest
    ((ip, e.status) :: r.1, ip :: r.2)

/-! ## Stop semantics: the worker and the stopping caller -/

/-- Program counter of the monitor worker running _monitor_loop
(ping_monitor.py lines 95 to 102): checkLoop is the while condition at
line 97, checkHost i the per-host stop check at line 99 before host i,
probeHost i the _ping_ip call at line 101, sleeping the time.sleep at
line 102, terminated the thread having returned. -/
inductive WorkerPC where
  | checkLoop
  | checkHost (i : Nat)
  | probeHost (i : Nat)
  | sleeping
  | terminated
deriving DecidableEq, Repr

/-- Program counter of the caller of stop (ping_monitor.py lines 113 to
119): idle before stop is called, joining between the event set at line
115 and the join at line 117 completing, returned after stop returned. -/
inductive MainPC where
  | idle
  | joining
  | returned
deriving DecidableEq, Repr

/-- Global state of the two threads: the shared stop event flag, both
program counters, and the trace of addresses probed so far. -/
structure SysState where
  event : Bool
  worker : WorkerPC
  main : MainPC
  probes : List String
deriving DecidableEq, Repr

/-- Interleaved small-step semantics of the worker loop and of stop, over
a fixed registry snapshot ips. Each constructor is one atomic action of
one thread: reading the shared event flag, probing one host, sleeping,
setting the event, or completing the join (which the threading library
allows only once the worker has terminated). -/
inductive Step (ips : List String) : SysState → SysState → Prop where
  | loopExit (m : MainPC) (pr : List String) :
      Step ips ⟨true, WorkerPC.checkLoop, m, pr⟩ ⟨true, WorkerPC.terminated, m, pr⟩
  | loopEnter (m : MainPC) (pr : List String) :
      Step ips ⟨false, WorkerPC.checkLoop, m, pr⟩ ⟨false, WorkerPC.checkHost 0, m, pr⟩
  | hostCheckStop (i : Nat) (m : MainPC) (pr : List String) :
      i < ips.length →
      Step ips ⟨true, WorkerPC.checkHost i, m, pr⟩ ⟨true, WorkerPC.sleeping, m, pr⟩
  | hostCheckNext (i : Nat) (m : MainPC) (pr : List String) :
      i < ips.length →
      Step ips ⟨false, WorkerPC.checkHost i, m, pr⟩ ⟨false, WorkerPC.probeHost i, m, pr⟩
  | hostsDone (e : Bool) (i : Nat) (m : MainPC) (pr : List String) :
      ips.length ≤ i →
      Step ips ⟨e, WorkerPC.checkHost i, m, pr⟩ ⟨e, WorkerPC.sleeping, m, pr⟩
  | probeRun (e : Bool) (i : Nat) (m : MainPC) (pr : List String) (h : i < ips.length) :
      Step ips ⟨e, WorkerPC.probeHost i, m, pr⟩
        ⟨e, WorkerPC.checkHost (i + 1), m, pr ++ [ips.get ⟨i, h⟩]⟩
  | sleepDone (e : Bool) (m : MainPC) (pr : List String) :
      Step ips ⟨e, WorkerPC.sleeping, m, pr⟩ ⟨e, WorkerPC.checkLoop, m, pr⟩
  | stopCall (e : Bool) (w : WorkerPC) (pr : List String) :
      Step ips ⟨e, w, MainPC.idle, pr⟩ ⟨true, w, MainPC.joining, pr⟩
  | joinReturn (e : Bool) (pr : List String) :
      Step ips ⟨e, WorkerPC.terminated, MainPC.joining, pr⟩
        ⟨e, WorkerPC.terminated, MainPC.returned, pr⟩

/-- Reflexive transitive closure of Step. -/
inductive Steps (ips : List String) : SysState → SysState → Prop where
  | refl (s : SysState) : Steps ips s s
  | tail (s t u : SysState) : Steps ips s t → Step ips t u → Steps ips s u

/-- Initial state: event clear (start, line 107), worker at the while
condition, stop not yet called, nothing probed. -/
def sysInit : SysState :=
  ⟨false, WorkerPC.checkLoop, MainPC.idle, []⟩

/-- States reachable from the initial state. -/
def Reachable (ips : List String) (s : SysState) : Prop :=
  Steps ips sysInit s

/-! ## Theorems -/

/-- Slicing from index minus zero is the identity. -/
theorem get_alert_history_zero (hist : List AlertData) :
    get_alert_history hist 0 = hist := by
  simp [get_alert_history, pySliceFrom]

/-- C10: for every non-empty alert history, get_alert_history with limit
equal to 0 returns the entire history in order, not the empty sequence,
because the implementation slices with the negated limit and a slice
starting at minus zero is the whole list. -/
theorem C10_limit_zero_whole_history (hist : List AlertData) (h : hist ≠ []) :
    get_alert_history hist 0 = hist ∧ get_alert_history hist 0 ≠ [] := by
  refine ⟨get_alert_history_zero hist, ?_⟩
  rw [get_alert_history_zero hist]
  exact h

/-- Witness for C10 at a concrete one-record history. -/
theorem C10_limit_zero_whole_history_witness :
    ([(⟨"t0", "10.0.0.1", "down", "error"⟩ : AlertData)] ≠ []) ∧
    get_alert_history [⟨"t0", "10.0.0.1", "down", "error"⟩] 0 =
      [⟨"t0", "10.0.0.1", "down", "error"⟩] :=
  ⟨by decide, (C10_limit_zero_whole_history _ (by decide)).1⟩

/-- Counterexample to C6 as stated: with limit equal to 0 the code
returns the whole one-record history instead of the last zero records. -/
theorem C6_limit_zero_cex :
    get_alert_history [⟨"t0", "10.0.0.1", "down", "error"⟩] 0 ≠
      lastN [⟨"t0", "10.0.0.1", "down", "error"⟩] (Int.toNat 0) := by
  decide

/-- C6 (amended): for every alert history and every limit at least 1,
get_alert_history returns the last limit records, the whole history when
it is shorter, in insertion order with the most recent record last. -/
theorem C6_get_alert_history_lastN (hist : List AlertData) (limit : Int)
    (h : 1 ≤ limit) :
    get_alert_history hist limit = lastN hist limit.toNat := by
  unfold get_alert_history pySliceFrom lastN
  have h1 : -limit < 0 := by omega
  simp only [if_pos h1]
  congr 1
  omega

/-- Witness for C6 at a concrete two-record history and limit 1. -/
theorem C6_get_alert_history_lastN_witness :
    ((1 : Int) ≤ 1) ∧
    get_alert_history [⟨"t0", "10.0.0.1", "down", "error"⟩,
                       ⟨"t1", "10.0.0.2", "up", "info"⟩] 1 =
      lastN [⟨"t0", "10.0.0.1", "down", "error"⟩,
             ⟨"t1", "10.0.0.2", "up", "info"⟩] (Int.toNat 1) :=
  ⟨by decide, C6_get_alert_history_lastN _ 1 (by decide)⟩

/-- Decoding inverts encoding on one history record. -/
theorem decodeAlert_encodeAlert (a : AlertData) :
    decodeAlert (encodeAlert a) = some a := rfl

/-- Decoding inverts encoding on a whole saved history. -/
theorem decodeHistory_save (hist : List AlertData) :
    decodeHistory (save_alert_history hist) = some hist := by
  unfold decodeHistory save_alert_history
  induction hist with
  | nil => rfl
  | cons a t ih => simp_all [decodeList, decodeAlert_encodeAlert]

/-- C5: serializing any alert history with save_alert_history and
deserializing the result with load_alert_history reproduces the original
record sequence, order preserved, whatever history was in memory before
the load. -/
theorem C5_history_round_trip (current hist : List AlertData) :
    load_alert_history current (some (save_alert_history hist)) = hist := by
  simp [load_alert_history, decodeHistory_save]

/-- Counterexample to C3 as stated: with the email flag enabled but no
recipient configured, the email channel is enabled yet not attempted,
because send_alert guards the email branch on a nonempty recipient list. -/
theorem C3_email_no_recipients_cex :
    Channel.email ∉
      (send_alert ⟨true, "", 587, "", "", [], false, false, ""⟩
        ⟨false, false, false, false, false⟩ [] "10.0.0.1" "down" "error"
        "t0").attempted := by
  decide

/-- C3 (amended): for every configuration and every behaviour of the
channel primitives, including each one raising, send_alert appends
exactly one record to the history, never raises to its caller, attempts
the desktop channel exactly when enabled, the sound channel exactly when
enabled, and the email channel exactly when enabled with at least one
recipient configured; the attempts depend only on the configuration, so
a failure in one channel never prevents another. -/
theorem C3_send_alert_isolated (cfg : AlertConfig) (env : ChannelEnv)
    (hist : List AlertData) (ip msg ty now : String) :
    (send_alert cfg env hist ip msg ty now).history = hist ++ [⟨now, ip, msg, ty⟩] ∧
    (send_alert cfg env hist ip msg ty now).raised = false ∧
    (Channel.desktop ∈ (send_alert cfg env hist ip msg ty now).attempted ↔
      cfg.desktop_notification = true) ∧
    (Channel.sound ∈ (send_alert cfg env hist ip msg ty now).attempted ↔
      cfg.sound_alert = true) ∧
    (Channel.email ∈ (send_alert cfg env hist ip msg ty now).attempted ↔
      (cfg.email_enabled = true ∧ cfg.email_recipients ≠ [])) := by
  obtain ⟨ee, es, ep, eu, epw, er, dn, sa, sf⟩ := cfg
  cases dn <;> cases sa <;> cases ee <;> cases er <;>
    simp [send_alert, List.isEmpty]

/-- A key absent from an association list looks up to none. -/
theorem lookup_eq_none_of_not_mem_keys (reg : List (String × IPStatus))
    (ip : String) (h : ip ∉ reg.map Prod.fst) : reg.lookup ip = none := by
  induction reg with
  | nil => rfl
  | cons a t ih =>
    simp only [List.map_cons, List.mem_cons, not_or] at h
    have hb : (ip == a.1) = false := by
      simp [beq_iff_eq]
      exact h.1
    simp [List.lookup, hb, ih h.2]

/-- A key that looks up to none occurs zero times. -/
theorem countP_eq_zero_of_lookup_none (reg : List (String × IPStatus))
    (ip : String) (h : reg.lookup ip = none) :
    reg.countP (fun p => p.1 == ip) = 0 := by
  induction reg with
  | nil => rfl
  | cons a t ih =>
    by_cases hb : ip = a.1
    · simp [List.lookup, hb] at h
    · have hb2 : (ip == a.1) = false := by simp [beq_iff_eq, hb]
      simp only [List.lookup, hb2] at h
      have hb3 : (a.1 == ip) = false := by
        simp [beq_iff_eq]
        exact fun hc => hb hc.symm
      simp [List.countP_cons, hb3, ih h]

/-- With unique keys, a key that looks up to some value occurs exactly
once. -/
theorem countP_eq_one_of_lookup_isSome (reg : List (String × IPStatus))
    (ip : String) (hwf : (reg.map Prod.fst).Nodup)
    (h : (reg.lookup ip).isSome = true) :
    reg.countP (fun p => p.1 == ip) = 1 := by
  induction reg with
  | nil => simp [List.lookup] at h
  | cons a t ih =>
    simp only [List.map_cons, List.nodup_cons] at hwf
    by_cases hb : ip = a.1
    · have hnone : t.lookup ip = none := by
        apply lookup_eq_none_of_not_mem_keys
        rw [hb]
        exact hwf.1
      have hb3 : (a.1 == ip) = true := by simp [beq_iff_eq, hb]
      simp [List.countP_cons, hb3, countP_eq_zero_of_lookup_none t ip hnone]
    · have hb2 : (ip == a.1) = false := by simp [beq_iff_eq, hb]
      simp only [List.lookup, hb2] at h
      have hb3 : (a.1 == ip) = false := by
        simp [beq_iff_eq]
        exact fun hc => hb hc.symm
      simp [List.countP_cons, hb3, ih hwf.2 h]

/-- Appending a fresh key to an association list makes it found. -/
theorem lookup_append_singleton (reg : List (String × IPStatus))
    (ip : String) (x : IPStatus) (h : reg.lookup ip = none) :
    (reg ++ [(ip, x)]).lookup ip = some x := by
  induction reg with
  | nil => simp [List.lookup]
  | cons a t ih =>
    by_cases hb : ip = a.1
    · simp [List.lookup, hb] at h
    · have hb2 : (ip == a.1) = false := by simp [beq_iff_eq, hb]
      simp only [List.lookup, hb2] at h
      simp [List.lookup, hb2, ih h]

/-- C7: calling add_ip twice with the same address on a registry with
unique keys leaves exactly one entry for that address; when the address
was absent the single inserted entry is the fresh offline record built
from the first call, the rest of the registry untouched; when the
address was present nothing changes at all. -/
theorem C7_add_ip_idempotent (reg : List (String × IPStatus))
    (ip g1 g2 : String) (hwf : (reg.map Prod.fst).Nodup) :
    ((add_ip (add_ip reg ip g1) ip g2).countP (fun p => p.1 == ip) = 1) ∧
    ((reg.lookup ip).isSome = false →
      add_ip (add_ip reg ip g1) ip g2 = reg ++ [(ip, freshStatus ip g1)]) ∧
    ((reg.lookup ip).isSome = true → add_ip (add_ip reg ip g1) ip g2 = reg) := by
  by_cases hl : (reg.lookup ip).isSome = true
  · have h1 : add_ip reg ip g1 = reg := by simp [add_ip, hl]
    have h2 : add_ip (add_ip reg ip g1) ip g2 = reg := by rw [h1]; simp [add_ip, hl]
    refine ⟨?_, ?_, fun _ => h2⟩
    · rw [h2]
      exact countP_eq_one_of_lookup_isSome reg ip hwf hl
    · intro hc
      rw [hl] at hc
      cases hc
  · have hnone : reg.lookup ip = none := by
      cases hr : reg.lookup ip with
      | none => rfl
      | some v => rw [hr] at hl; simp at hl
    have h1 : add_ip reg ip g1 = reg ++ [(ip, freshStatus ip g1)] := by
      simp [add_ip, hnone]
    have hfound : (reg ++ [(ip, freshStatus ip g1)]).lookup ip =
        some (freshStatus ip g1) :=
      lookup_append_singleton reg ip (freshStatus ip g1) hnone
    have h2 : add_ip (add_ip reg ip g1) ip g2 = reg ++ [(ip, freshStatus ip g1)] := by
      rw [h1]
      simp [add_ip, hfound]
    refine ⟨?_, fun _ => h2, ?_⟩
    · rw [h2, List.countP_append,
        countP_eq_zero_of_lookup_none reg ip hnone]
      simp [List.countP_cons]
    · intro hc
      rw [hnone] at hc
      cases hc

/-- Witness for C7: adding the same address twice to the empty registry. -/
theorem C7_add_ip_idempotent_witness :
    ((([] : List (String × IPStatus)).map Prod.fst).Nodup) ∧
    ((add_ip (add_ip [] "10.0.0.1" "A") "10.0.0.1" "B").countP
      (fun p => p.1 == "10.0.0.1") = 1) :=
  ⟨by simp, (C7_add_ip_idempotent [] "10.0.0.1" "A" "B" (by simp)).1⟩

/-- One failed probe transforms the record by updateOnFailure. -/
theorem probeStep_unreachable (now : Nat) (cbs : List Callback)
    (ip : String) (st : IPStatus) :
    probeStep ProbeOutcome.unreachable now cbs ip st = updateOnFailure st now := rfl

/-- One successful probe transforms the record by updateOnSuccess. -/
theorem probeStep_success (lat : ℚ) (now : Nat) (cbs : List Callback)
    (ip : String) (st : IPStatus) :
    probeStep (ProbeOutcome.success lat) now cbs ip st =
      updateOnSuccess st lat now := rfl

/-- A run of failed probes adds its length to the failure counter. -/
theorem foldFailures_count (cbs : List Callback) (ip : String) :
    ∀ (ts : List Nat) (st : IPStatus),
      (foldFailures st ts cbs ip).consecutive_failures =
        st.consecutive_failures + ts.length := by
  intro ts
  induction ts with
  | nil => intro st; simp [foldFailures]
  | cons t rest ih =>
    intro st
    have := ih (updateOnFailure st t)
    simp only [foldFailures, List.foldl_cons] at this ⊢
    rw [probeStep_unreachable] at *
    rw [this]
    simp [updateOnFailure]
    ring

/-- A nonempty run of failed probes ends offline with zero response time
and the last failure stamped with the last probe time. -/
theorem foldFailures_fields (cbs : List Callback) (ip : String) :
    ∀ (ts : List Nat), ts ≠ [] → ∀ st : IPStatus,
      (foldFailures st ts cbs ip).is_online = false ∧
      (foldFailures st ts cbs ip).response_time = 0 ∧
      (foldFailures st ts cbs ip).last_failure = ts.getLast? := by
  intro ts
  induction ts with
  | nil => intro h; cases h rfl
  | cons t rest ih =>
    intro _ st
    cases rest with
    | nil =>
      simp [foldFailures, probeStep_unreachable, updateOnFailure]
    | cons t2 rest2 =>
      have := ih (List.cons_ne_nil t2 rest2) (updateOnFailure st t)
      simp only [foldFailures, List.foldl_cons, probeStep_unreachable] at this ⊢
      refine ⟨this.1, this.2.1, ?_⟩
      rw [this.2.2, List.getLast?_cons_cons]

/-- C2: starting from any status, after a nonempty run of consecutive
failed probes the failure counter equals its previous value plus the
number of failures, the host is offline with zero response time and the
last failure stamped; one subsequent successful probe resets the counter
to zero, marks the host online and stamps the last success. -/
theorem C2_failure_run_then_success (st : IPStatus) (ts : List Nat)
    (h : ts ≠ []) (cbs : List Callback) (ip : String) (lat : ℚ) (nows : Nat) :
    (foldFailures st ts cbs ip).consecutive_failures =
      st.consecutive_failures + ts.length ∧
    (foldFailures st ts cbs ip).is_online = false ∧
    (foldFailures st ts cbs ip).response_time = 0 ∧
    (foldFailures st ts cbs ip).last_failure = some (ts.getLast h) ∧
    (probeStep (ProbeOutcome.success lat) nows cbs ip
      (foldFailures st ts cbs ip)).consecutive_failures = 0 ∧
    (probeStep (ProbeOutcome.success lat) nows cbs ip
      (foldFailures st ts cbs ip)).is_online = true ∧
    (probeStep (ProbeOutcome.success lat) nows cbs ip
      (foldFailures st ts cbs ip)).last_success = some nows := by
  obtain ⟨h1, h2, h3⟩ := foldFailures_fields cbs ip ts h st
  rw [List.getLast?_eq_getLast ts h] at h3
  refine ⟨foldFailures_count cbs ip ts st, h1, h2, h3, ?_, ?_, ?_⟩ <;>
    simp [probeStep_success, updateOnSuccess]

/-- Witness for C2: two failures at ticks 1 and 2 from a fresh record. -/
theorem C2_failure_run_then_success_witness :
    (([1, 2] : List Nat) ≠ []) ∧
    (foldFailures (freshStatus "10.0.0.1" "A") [1, 2] [] "10.0.0.1").consecutive_failures =
      (freshStatus "10.0.0.1" "A").consecutive_failures + ([1, 2] : List Nat).length :=
  ⟨by decide,
   (C2_failure_run_then_success (freshStatus "10.0.0.1" "A") [1, 2]
     (by decide) [] "10.0.0.1" 5 7).1⟩

/-- One probe step preserves the status invariant when a successful
latency is nonnegative. -/
theorem probeStep_invariant (o : ProbeOutcome) (now : Nat)
    (cbs : List Callback) (ip : String) (st : IPStatus)
    (hst : statusInvariant st) (hlat : ∀ t : ℚ, o = ProbeOutcome.success t → 0 ≤ t) :
    statusInvariant (probeStep o now cbs ip st) := by
  unfold statusInvariant at hst ⊢
  cases o with
  | error => exact hst
  | success t =>
    have ht : 0 ≤ t := hlat t rfl
    have hrt : (0 : ℚ) ≤ t * 1000 := by positivity
    simp [probeStep_success, updateOnSuccess, hrt]
  | unreachable =>
    have h3 := hst.2.2
    simp [probeStep_unreachable, updateOnFailure]
    omega

/-- The fresh record inserted by add_ip satisfies the invariant. -/
theorem freshStatus_invariant (ip g : String) :
    statusInvariant (freshStatus ip g) := by
  unfold statusInvariant freshStatus
  simp

/-- C4: every host record reachable from add_ip by any sequence of probe
updates with nonnegative success latencies satisfies the invariant:
online implies a zero failure counter and nonnegative response time,
offline implies zero response time, and the failure counter is never
negative. -/
theorem C4_status_invariant (ip g : String) (evs : List (ProbeOutcome × Nat))
    (cbs : List Callback)
    (hlat : ∀ e ∈ evs, ∀ t : ℚ, e.1 = ProbeOutcome.success t → 0 ≤ t) :
    statusInvariant (applyProbes (freshStatus ip g) evs cbs ip) := by
  have general : ∀ (l : List (ProbeOutcome × Nat)) (st : IPStatus),
      statusInvariant st →
      (∀ e ∈ l, ∀ t : ℚ, e.1 = ProbeOutcome.success t → 0 ≤ t) →
      statusInvariant (applyProbes st l cbs ip) := by
    intro l
    induction l with
    | nil => intro st hst _; exact hst
    | cons e rest ih =>
      intro st hst hl
      simp only [applyProbes, List.foldl_cons]
      have hstep := probeStep_invariant e.1 e.2 cbs ip st hst
        (fun t ht => hl e (List.mem_cons_self e rest) t ht)
      exact ih (probeStep e.1 e.2 cbs ip st) hstep
        (fun x hx t ht => hl x (List.mem_cons_of_mem e hx) t ht)
  exact general evs (freshStatus ip g) (freshStatus_invariant ip g) hlat

/-- Witness for C4: one successful probe with latency 5 at tick 1. -/
theorem C4_status_invariant_witness :
    (∀ e ∈ [(ProbeOutcome.success 5, 1)], ∀ t : ℚ,
      e.1 = ProbeOutcome.success t → 0 ≤ t) ∧
    statusInvariant (applyProbes (freshStatus "10.0.0.1" "A")
      [(ProbeOutcome.success 5, 1)] [] "10.0.0.1") := by
  have hl : ∀ e ∈ [(ProbeOutcome.success 5, 1)], ∀ t : ℚ,
      e.1 = ProbeOutcome.success t → 0 ≤ t := by
    intro e he t ht
    simp only [List.mem_singleton] at he
    subst he
    simp only at ht
    cases ht
    norm_num
  exact ⟨hl, C4_status_invariant "10.0.0.1" "A" [(ProbeOutcome.success 5, 1)] [] hl⟩

/-- When no callback raises, the fan-out loop invokes every callback in
order and no exception escapes it. -/
theorem runCallbacksFrom_all_ok :
    ∀ (cbs : List Callback) (i : Nat) (ip : String) (st : IPStatus),
      (∀ cb ∈ cbs, cb ip st = false) →
      runCallbacksFrom cbs i ip st = (List.range' i cbs.length, false) := by
  intro cbs
  induction cbs with
  | nil => intro i ip st _; rfl
  | cons cb rest ih =>
    intro i ip st h
    have hcb : cb ip st = false := h cb (List.mem_cons_self cb rest)
    have hrest : ∀ c ∈ rest, c ip st = false :=
      fun c hc => h c (List.mem_cons_of_mem cb hc)
    simp [runCallbacksFrom, hcb, ih (i + 1) ip st hrest, List.range'_succ]

/-- When the first raising callback sits after a prefix of non-raising
ones, the fan-out loop invokes exactly the prefix and that callback, and
the exception escapes the loop. -/
theorem runCallbacksFrom_first_raise :
    ∀ (pre : List Callback) (cb : Callback) (post : List Callback)
      (i : Nat) (ip : String) (st : IPStatus),
      (∀ c ∈ pre, c ip st = false) → cb ip st = true →
      runCallbacksFrom (pre ++ cb :: post) i ip st =
        (List.range' i (pre.length + 1), true) := by
  intro pre
  induction pre with
  | nil =>
    intro cb post i ip st _ hcb
    simp [runCallbacksFrom, hcb, List.range'_succ]
  | cons c rest ih =>
    intro cb post i ip st hpre hcb
    have hc : c ip st = false := hpre c (List.mem_cons_self c rest)
    have hrest : ∀ x ∈ rest, x ip st = false :=
      fun x hx => hpre x (List.mem_cons_of_mem c hx)
    simp [runCallbacksFrom, hc, ih cb post (i + 1) ip st hrest hcb,
      List.range'_succ]

/-- Counterexample to C1 as stated: with two registered observers of
which the first raises, a failed probe invokes only the first observer;
the second (sibling) observer is skipped, because the callback loop of
_ping_ip sits inside the same try block as the probe itself. -/
theorem C1_sibling_observer_skipped_cex :
    (ping_ip ProbeOutcome.unreachable (freshStatus "10.0.0.1" "A") 0
      [fun _ _ => true, fun _ _ => false] "10.0.0.1").invoked = [0] ∧
    (ping_ip ProbeOutcome.unreachable (freshStatus "10.0.0.1" "A") 0
      [fun _ _ => true, fun _ _ => false] "10.0.0.1").invoked ≠ [0, 1] := by
  constructor
  · rfl
  · intro h
    simp [ping_ip, runCallbacksFrom] at h

/-- C1 (amended): when a probe completes with a success or an
unreachable result, the observers are invoked in registration order with
the updated status; when none of them raises, all of them are invoked;
when one raises, the observers before it and the raising one itself are
invoked, the observers after it are skipped for that probe, and the
exception is caught by _ping_ip, so nothing propagates and the
monitoring cycle continues. -/
theorem C1_observer_invocation (o : ProbeOutcome)
    (ho : o ≠ ProbeOutcome.error) (cbs : List Callback) (ip : String)
    (st : IPStatus) (now : Nat) :
    (ping_ip o st now cbs ip).raisedToCaller = false ∧
    ((∀ cb ∈ cbs, cb ip (ping_ip o st now cbs ip).status = false) →
      (ping_ip o st now cbs ip).invoked = List.range cbs.length) ∧
    (∀ (pre : List Callback) (cb : Callback) (post : List Callback),
      cbs = pre ++ cb :: post →
      (∀ c ∈ pre, c ip (ping_ip o st now cbs ip).status = false) →
      cb ip (ping_ip o st now cbs ip).status = true →
      (ping_ip o st now cbs ip).invoked = List.range (pre.length + 1)) := by
  cases o with
  | error => cases ho rfl
  | success t =>
    refine ⟨rfl, ?_, ?_⟩
    · intro h
      have := runCallbacksFrom_all_ok cbs 0 ip (updateOnSuccess st t now) h
      simp [ping_ip, this, List.range_eq_range']
    · intro pre cb post hsplit hpre hcb
      subst hsplit
      have := runCallbacksFrom_first_raise pre cb post 0 ip
        (updateOnSuccess st t now) hpre hcb
      simp [ping_ip, this, List.range_eq_range']
  | unreachable =>
    refine ⟨rfl, ?_, ?_⟩
    · intro h
      have := runCallbacksFrom_all_ok cbs 0 ip (updateOnFailure st now) h
      simp [ping_ip, this, List.range_eq_range']
    · intro pre cb post hsplit hpre hcb
      subst hsplit
      have := runCallbacksFrom_first_raise pre cb post 0 ip
        (updateOnFailure st now) hpre hcb
      simp [ping_ip, this, List.range_eq_range']

/-- Witness for C1: one non-raising observer on a failed probe is
invoked. -/
theorem C1_observer_invocation_witness :
    (ProbeOutcome.unreachable ≠ ProbeOutcome.error) ∧
    (ping_ip ProbeOutcome.unreachable (freshStatus "10.0.0.1" "A") 3
      [fun _ _ => false] "10.0.0.1").invoked = List.range 1 :=
  ⟨by decide,
   (C1_observer_invocation ProbeOutcome.unreachable (by decide)
     [fun _ _ => false] "10.0.0.1" (freshStatus "10.0.0.1" "A") 3).2.1
     (by
       intro cb hcb
       simp only [List.mem_singleton] at hcb
       subst hcb
       rfl)⟩

/-- Every host of a registry snapshot is processed by the cycle sweep. -/
theorem runCycle_processes_all (outcomeOf : String → ProbeOutcome)
    (now : Nat) (cbs : List Callback) :
    ∀ reg : List (String × IPStatus),
      (runCycle outcomeOf now cbs reg).2 = reg.map Prod.fst := by
  intro reg
  induction reg with
  | nil => rfl
  | cons p rest ih =>
    obtain ⟨ip, st⟩ := p
    simp [runCycle, ih]

/-- C8: when the probe step for a host raises an unexpected error, the
except branch of _ping_ip catches and logs it: the status record is left
entirely unchanged (in particular the failure counter is not
incremented), no observer is invoked, nothing propagates, and the cycle
sweep still processes every host of the snapshot, keeping the errored
host and its record in the registry. -/
theorem C8_probe_error_isolated (outcomeOf : String → ProbeOutcome)
    (now : Nat) (cbs : List Callback) (ip : String) (st : IPStatus)
    (reg : List (String × IPStatus))
    (ho : outcomeOf ip = ProbeOutcome.error) (hmem : (ip, st) ∈ reg) :
    (ping_ip (outcomeOf ip) st now cbs ip).status = st ∧
    (ping_ip (outcomeOf ip) st now cbs ip).invoked = [] ∧
    (ping_ip (outcomeOf ip) st now cbs ip).raisedToCaller = false ∧
    (runCycle outcomeOf now cbs reg).2 = reg.map Prod.fst ∧
    (ip, st) ∈ (runCycle outcomeOf now cbs reg).1 := by
  rw [ho]
  refine ⟨rfl, rfl, rfl, runCycle_processes_all outcomeOf now cbs reg, ?_⟩
  induction reg with
  | nil => cases hmem
  | cons p rest ih =>
    obtain ⟨ip2, st2⟩ := p
    rcases List.mem_cons.mp hmem with hhead | htail
    · obtain ⟨h1, h2⟩ := Prod.mk.injEq ip st ip2 st2 ▸ hhead
      subst h1
      subst h2
      simp [runCycle, ho, ping_ip]
    · simp only [runCycle]
      exact List.mem_cons_of_mem _ (ih htail)

/-- Witness for C8: a one-host registry whose probe raises. -/
theorem C8_probe_error_isolated_witness :
    ((fun _ : String => ProbeOutcome.error) "10.0.0.1" = ProbeOutcome.error) ∧
    (("10.0.0.1", freshStatus "10.0.0.1" "A") ∈
      [("10.0.0.1", freshStatus "10.0.0.1" "A")]) ∧
    (ping_ip ((fun _ : String => ProbeOutcome.error) "10.0.0.1")
      (freshStatus "10.0.0.1" "A") 0 [] "10.0.0.1").status =
      freshStatus "10.0.0.1" "A" :=
  ⟨rfl, by decide,
   (C8_probe_error_isolated (fun _ => ProbeOutcome.error) 0 [] "10.0.0.1"
     (freshStatus "10.0.0.1" "A") [("10.0.0.1", freshStatus "10.0.0.1" "A")]
     rfl (by decide)).1⟩

/-- Once the stop event is set and the worker is not in the middle of a
probe action, one step never probes, never clears the event, and never
enters a probe action. -/
theorem step_no_probe_after_event (ips : List String) (s t : SysState)
    (hstep : Step ips s t) (he : s.event = true)
    (hw : ∀ j, s.worker ≠ WorkerPC.probeHost j) :
    t.probes = s.probes ∧ t.event = true ∧
    (∀ j, t.worker ≠ WorkerPC.probeHost j) := by
  cases hstep with
  | loopExit m pr => exact ⟨rfl, rfl, fun j h => WorkerPC.noConfusion h⟩
  | loopEnter m pr => exact Bool.noConfusion he
  | hostCheckStop i m pr hi => exact ⟨rfl, rfl, fun j h => WorkerPC.noConfusion h⟩
  | hostCheckNext i m pr hi => exact Bool.noConfusion he
  | hostsDone e i m pr hi => exact ⟨rfl, he, fun j h => WorkerPC.noConfusion h⟩
  | probeRun e i m pr h => exact absurd rfl (hw i)
  | sleepDone e m pr => exact ⟨rfl, he, fun j h => WorkerPC.noConfusion h⟩
  | stopCall e w pr => exact ⟨rfl, rfl, hw⟩
  | joinReturn e pr => exact ⟨rfl, he, fun j h => WorkerPC.noConfusion h⟩

/-- Closure of the previous lemma over any number of steps: after the
stop request is observed outside a probe action, the probe trace never
grows again. -/
theorem steps_no_probe_after_event (ips : List String) (s t : SysState)
    (hsteps : Steps ips s t) (he : s.event = true)
    (hw : ∀ j, s.worker ≠ WorkerPC.probeHost j) :
    t.probes = s.probes ∧ t.event = true ∧
    (∀ j, t.worker ≠ WorkerPC.probeHost j) := by
  induction hsteps with
  | refl => exact ⟨rfl, he, hw⟩
  | tail v w hsv hstep ih =>
    obtain ⟨h1, h2, h3⟩ := ih
    obtain ⟨g1, g2, g3⟩ := step_no_probe_after_event ips v w hstep h2 h3
    exact ⟨g1.trans h1, g2, g3⟩

/-- In every reachable state, stop having returned implies the worker
has terminated: the join of stop only completes on a terminated worker,
and a terminated worker never moves again. -/
theorem returned_implies_terminated (ips : List String) (s : SysState)
    (h : Reachable ips s) :
    s.main = MainPC.returned → s.worker = WorkerPC.terminated := by
  unfold Reachable at h
  induction h with
  | refl => intro hm; exact MainPC.noConfusion hm
  | tail v w hsv hstep ih =>
    intro hm
    cases hstep with
    | loopExit m pr => exact WorkerPC.noConfusion (ih hm)
    | loopEnter m pr => exact WorkerPC.noConfusion (ih hm)
    | hostCheckStop i m pr hi => exact WorkerPC.noConfusion (ih hm)
    | hostCheckNext i m pr hi => exact WorkerPC.noConfusion (ih hm)
    | hostsDone e i m pr hi => exact WorkerPC.noConfusion (ih hm)
    | probeRun e i m pr h => exact WorkerPC.noConfusion (ih hm)
    | sleepDone e m pr => exact WorkerPC.noConfusion (ih hm)
    | stopCall e w2 pr => exact MainPC.noConfusion hm
    | joinReturn e pr => rfl

/-- A state in which stop has returned and the worker has terminated has
no successor: neither thread can move. -/
theorem no_step_after_returned (ips : List String) (s t : SysState)
    (hm : s.main = MainPC.returned) (hw : s.worker = WorkerPC.terminated) :
    ¬ Step ips s t := by
  intro hstep
  cases hstep with
  | loopExit m pr => exact WorkerPC.noConfusion hw
  | loopEnter m pr => exact WorkerPC.noConfusion hw
  | hostCheckStop i m pr hi => exact WorkerPC.noConfusion hw
  | hostCheckNext i m pr hi => exact WorkerPC.noConfusion hw
  | hostsDone e i m pr hi => exact WorkerPC.noConfusion hw
  | probeRun e i m pr h => exact WorkerPC.noConfusion hw
  | sleepDone e m pr => exact WorkerPC.noConfusion hw
  | stopCall e w2 pr => exact MainPC.noConfusion hm
  | joinReturn e pr => exact MainPC.noConfusion hm

/-- C9: in every reachable state of the two-thread system, once stop has
returned the worker has fully exited and the system takes no further
step at all, so no probe is issued after stop returns; and when the stop
request is observed at the per-host check in the middle of a cycle, the
probe trace never grows again, so the remaining hosts of that cycle are
aborted. -/
theorem C9_stop_join_semantics (ips : List String) (s : SysState)
    (hs : Reachable ips s) :
    (s.main = MainPC.returned →
      s.worker = WorkerPC.terminated ∧ ∀ t, ¬ Step ips s t) ∧
    (∀ i, s.worker = WorkerPC.checkHost i → s.event = true →
      ∀ t, Steps ips s t → t.probes = s.probes) := by
  constructor
  · intro hm
    have hw := returned_implies_terminated ips s hs hm
    exact ⟨hw, fun t => no_step_after_returned ips s t hm hw⟩
  · intro i hwi he t hst
    have hnp : ∀ j, s.worker ≠ WorkerPC.probeHost j := by
      intro j h
      rw [hwi] at h
      exact WorkerPC.noConfusion h
    exact (steps_no_probe_after_event ips s t hst he hnp).1

/-- Witness for C9: a concrete run in which stop is called, the worker
observes the event and terminates, and the join completes. -/
theorem C9_stop_join_semantics_witness :
    Reachable ["10.0.0.1"]
      ⟨true, WorkerPC.terminated, MainPC.returned, []⟩ ∧
    (⟨true, WorkerPC.terminated, MainPC.returned, []⟩ : SysState).worker =
      WorkerPC.terminated := by
  have h1 : Step ["10.0.0.1"] sysInit
      ⟨true, WorkerPC.checkLoop, MainPC.joining, []⟩ :=
    Step.stopCall false WorkerPC.checkLoop []
  have h2 : Step ["10.0.0.1"] ⟨true, WorkerPC.checkLoop, MainPC.joining, []⟩
      ⟨true, WorkerPC.terminated, MainPC.joining, []⟩ :=
    Step.loopExit MainPC.joining []
  have h3 : Step ["10.0.0.1"] ⟨true, WorkerPC.terminated, MainPC.joining, []⟩
      ⟨true, WorkerPC.terminated, MainPC.returned, []⟩ :=
    Step.joinReturn true []
  have hr : Reachable ["10.0.0.1"]
      ⟨true, WorkerPC.terminated, MainPC.returned, []⟩ :=
    Steps.tail _ _ _ (Steps.tail _ _ _ (Steps.tail _ _ _
      (Steps.refl sysInit) h1) h2) h3
  exact ⟨hr, ((C9_stop_join_semantics ["10.0.0.1"] _ hr).1 rfl).1⟩

end PingRepo
